import Mathlib

/-!
Verification of the month-partitioned dataset mirroring script `hf_to_R2.py`.

The script loads each dataset, derives a `YYYY.MM` partition key per row
(`df["date"].dt.strftime("%Y.%m")`), caches one parquet file per month in a
local cache directory, and reconciles the cache with an R2 bucket through an
external `rclone` invocation.  The definitions below are a shallow embedding
of that script: dates are records of numerals, dataframes are lists of rows,
the local cache is a map from month key to file content, and the external
transfer is modelled by the command list the script builds plus (for the
transfer semantics themselves, which live outside the script) a model of
rclone's copy/sync behaviour taken from the specification.
-/

/-- Calendar date, the value carried by the `date` column after
`pd.to_datetime`. -/
structure Date where
  year : Nat
  month : Nat
  day : Nat
deriving DecidableEq, Repr

/-- Dates representable by the script's datetime stack: positive 4-digit year
and ordinary month/day ranges. -/
def ValidDate (d : Date) : Prop :=
  1 ≤ d.year ∧ d.year ≤ 9999 ∧ 1 ≤ d.month ∧ d.month ≤ 12 ∧ 1 ≤ d.day ∧ d.day ≤ 31

instance (d : Date) : Decidable (ValidDate d) := by
  unfold ValidDate; infer_instance

/-- Decimal digit character of `n % 10`, as produced by zero-padded
`strftime` fields. -/
def digitChar (n : Nat) : Char := Char.ofNat (48 + n % 10)

/-- Rendering of `strftime("%Y.%m")` for a `(year, month)` pair: the
zero-padded 4-digit year, a dot, and the zero-padded 2-digit month
(faithful for years up to 9999, the datetime range). -/
def yearMonthKey (y m : Nat) : String :=
  String.mk
    [digitChar (y / 1000), digitChar (y / 100), digitChar (y / 10), digitChar y,
     '.', digitChar (m / 10), digitChar m]

/-- Partition key of a row's date: `df["year_month"] = df["date"].dt.strftime("%Y.%m")`
(line 171 of the script). -/
def deriveKey (d : Date) : String := yearMonthKey d.year d.month

theorem digitChar_lt_of_lt {a b : Nat} (ha : a < 10) (hb : b < 10) :
    (digitChar a < digitChar b ↔ a < b) := by
  unfold digitChar
  rw [Nat.mod_eq_of_lt ha, Nat.mod_eq_of_lt hb]
  interval_cases a <;> interval_cases b <;> decide

theorem digitChar_eq_of_lt {a b : Nat} (ha : a < 10) (hb : b < 10) :
    (digitChar a = digitChar b ↔ a = b) := by
  unfold digitChar
  rw [Nat.mod_eq_of_lt ha, Nat.mod_eq_of_lt hb]
  interval_cases a <;> interval_cases b <;> decide

theorem digitChar_lt_iff (a b : Nat) : digitChar a < digitChar b ↔ a % 10 < b % 10 := by
  have e1 : digitChar a = digitChar (a % 10) := by unfold digitChar; congr 1; omega
  have e2 : digitChar b = digitChar (b % 10) := by unfold digitChar; congr 1; omega
  rw [e1, e2, digitChar_lt_of_lt (by omega) (by omega)]

theorem digitChar_eq_iff (a b : Nat) : digitChar a = digitChar b ↔ a % 10 = b % 10 := by
  have e1 : digitChar a = digitChar (a % 10) := by unfold digitChar; congr 1; omega
  have e2 : digitChar b = digitChar (b % 10) := by unfold digitChar; congr 1; omega
  rw [e1, e2, digitChar_eq_of_lt (by omega) (by omega)]

theorem charLex_cons_iff {a b : Char} {as bs : List Char} :
    List.Lex (· < ·) (a :: as) (b :: bs) ↔ a < b ∨ (a = b ∧ List.Lex (· < ·) as bs) := by
  constructor
  · intro h
    cases h with
    | rel h => exact Or.inl h
    | cons h => exact Or.inr ⟨rfl, h⟩
  · rintro (h | ⟨rfl, h⟩)
    · exact List.Lex.rel h
    · exact List.Lex.cons h

theorem charLex_nil_nil_iff : List.Lex (· < ·) ([] : List Char) [] ↔ False :=
  iff_false_intro (List.Lex.not_nil_right _ _)

theorem dot_lt_dot_iff : (('.' : Char) < '.') ↔ False :=
  iff_false_intro (lt_irrefl _)

/-- Lexicographic string order on rendered keys agrees with calendar order of
the `(year, month)` pairs, in the ranges the script can produce. -/
theorem yearMonthKey_lt_iff {y1 m1 y2 m2 : Nat}
    (hy1 : y1 ≤ 9999) (hy2 : y2 ≤ 9999) (hm1 : m1 ≤ 99) (hm2 : m2 ≤ 99) :
    (yearMonthKey y1 m1 < yearMonthKey y2 m2 ↔
      (y1 < y2 ∨ (y1 = y2 ∧ m1 < m2))) := by
  rw [String.lt_iff_toList_lt]
  show List.Lex (· < ·)
      [digitChar (y1 / 1000), digitChar (y1 / 100), digitChar (y1 / 10), digitChar y1,
       '.', digitChar (m1 / 10), digitChar m1]
      [digitChar (y2 / 1000), digitChar (y2 / 100), digitChar (y2 / 10), digitChar y2,
       '.', digitChar (m2 / 10), digitChar m2] ↔ _
  simp only [charLex_cons_iff, charLex_nil_nil_iff, dot_lt_dot_iff,
    digitChar_lt_iff, digitChar_eq_iff, eq_self_iff_true, true_and, and_false,
    false_or, or_false]
  have hA : y1 = 1000 * (y1 / 1000 % 10) + 100 * (y1 / 100 % 10) +
      10 * (y1 / 10 % 10) + y1 % 10 := by omega
  have hB : y2 = 1000 * (y2 / 1000 % 10) + 100 * (y2 / 100 % 10) +
      10 * (y2 / 10 % 10) + y2 % 10 := by omega
  have hC : m1 = 10 * (m1 / 10 % 10) + m1 % 10 := by omega
  have hD : m2 = 10 * (m2 / 10 % 10) + m2 % 10 := by omega
  have ha3 : y1 / 1000 % 10 < 10 := by omega
  have ha2 : y1 / 100 % 10 < 10 := by omega
  have ha1 : y1 / 10 % 10 < 10 := by omega
  have ha0 : y1 % 10 < 10 := by omega
  have hb3 : y2 / 1000 % 10 < 10 := by omega
  have hb2 : y2 / 100 % 10 < 10 := by omega
  have hb1 : y2 / 10 % 10 < 10 := by omega
  have hb0 : y2 % 10 < 10 := by omega
  have hc1 : m1 / 10 % 10 < 10 := by omega
  have hc0 : m1 % 10 < 10 := by omega
  have hd1 : m2 / 10 % 10 < 10 := by omega
  have hd0 : m2 % 10 < 10 := by omega
  generalize y1 / 1000 % 10 = a3 at hA ha3 ⊢
  generalize y1 / 100 % 10 = a2 at hA ha2 ⊢
  generalize y1 / 10 % 10 = a1 at hA ha1 ⊢
  generalize y1 % 10 = a0 at hA ha0 ⊢
  generalize y2 / 1000 % 10 = b3 at hB hb3 ⊢
  generalize y2 / 100 % 10 = b2 at hB hb2 ⊢
  generalize y2 / 10 % 10 = b1 at hB hb1 ⊢
  generalize y2 % 10 = b0 at hB hb0 ⊢
  generalize m1 / 10 % 10 = c1 at hC hc1 ⊢
  generalize m1 % 10 = c0 at hC hc0 ⊢
  generalize m2 / 10 % 10 = d1 at hD hd1 ⊢
  generalize m2 % 10 = d0 at hD hd0 ⊢
  omega

theorem yearMonthKey_eq_iff {y1 m1 y2 m2 : Nat}
    (hy1 : y1 ≤ 9999) (hy2 : y2 ≤ 9999) (hm1 : m1 ≤ 99) (hm2 : m2 ≤ 99) :
    (yearMonthKey y1 m1 = yearMonthKey y2 m2 ↔ (y1 = y2 ∧ m1 = m2)) := by
  unfold yearMonthKey
  rw [String.ext_iff]
  simp only [List.cons.injEq, and_true, digitChar_eq_iff, eq_self_iff_true,
    true_and]
  have hA : y1 = 1000 * (y1 / 1000 % 10) + 100 * (y1 / 100 % 10) +
      10 * (y1 / 10 % 10) + y1 % 10 := by omega
  have hB : y2 = 1000 * (y2 / 1000 % 10) + 100 * (y2 / 100 % 10) +
      10 * (y2 / 10 % 10) + y2 % 10 := by omega
  have hC : m1 = 10 * (m1 / 10 % 10) + m1 % 10 := by omega
  have hD : m2 = 10 * (m2 / 10 % 10) + m2 % 10 := by omega
  have ha3 : y1 / 1000 % 10 < 10 := by omega
  have ha2 : y1 / 100 % 10 < 10 := by omega
  have ha1 : y1 / 10 % 10 < 10 := by omega
  have ha0 : y1 % 10 < 10 := by omega
  have hb3 : y2 / 1000 % 10 < 10 := by omega
  have hb2 : y2 / 100 % 10 < 10 := by omega
  have hb1 : y2 / 10 % 10 < 10 := by omega
  have hb0 : y2 % 10 < 10 := by omega
  have hc1 : m1 / 10 % 10 < 10 := by omega
  have hc0 : m1 % 10 < 10 := by omega
  have hd1 : m2 / 10 % 10 < 10 := by omega
  have hd0 : m2 % 10 < 10 := by omega
  generalize y1 / 1000 % 10 = a3 at hA ha3 ⊢
  generalize y1 / 100 % 10 = a2 at hA ha2 ⊢
  generalize y1 / 10 % 10 = a1 at hA ha1 ⊢
  generalize y1 % 10 = a0 at hA ha0 ⊢
  generalize y2 / 1000 % 10 = b3 at hB hb3 ⊢
  generalize y2 / 100 % 10 = b2 at hB hb2 ⊢
  generalize y2 / 10 % 10 = b1 at hB hb1 ⊢
  generalize y2 % 10 = b0 at hB hb0 ⊢
  generalize m1 / 10 % 10 = c1 at hC hc1 ⊢
  generalize m1 % 10 = c0 at hC hc0 ⊢
  generalize m2 / 10 % 10 = d1 at hD hd1 ⊢
  generalize m2 % 10 = d0 at hD hd0 ⊢
  omega

theorem digitChar_isDigit_of_lt {k : Nat} (h : k < 10) : (digitChar k).isDigit = true := by
  interval_cases k <;> decide

theorem digitChar_isDigit (n : Nat) : (digitChar n).isDigit = true := by
  have e : digitChar n = digitChar (n % 10) := by unfold digitChar; congr 1; omega
  rw [e]
  exact digitChar_isDigit_of_lt (by omega)

/-- C5: partition key derivation (`strftime("%Y.%m")` on the parsed date
column) is total on valid dates, always yields a 7-character `YYYY.MM`
string (digits around a dot), and depends only on the calendar year and
month: two dates in the same month derive identical keys. -/
theorem derive_key_total_and_month_determined (d1 d2 : Date)
    (h1 : ValidDate d1) (h2 : ValidDate d2)
    (hy : d1.year = d2.year) (hm : d1.month = d2.month) :
    deriveKey d1 = deriveKey d2 ∧
    (deriveKey d1).length = 7 ∧
    (deriveKey d1).data.getD 4 ' ' = '.' ∧
    (∀ i, i < 7 → i ≠ 4 → ((deriveKey d1).data.getD i ' ').isDigit = true) := by
  refine ⟨by unfold deriveKey; rw [hy, hm], rfl, rfl, ?_⟩
  intro i hi h4
  interval_cases i
  · exact digitChar_isDigit _
  · exact digitChar_isDigit _
  · exact digitChar_isDigit _
  · exact digitChar_isDigit _
  · exact absurd rfl h4
  · exact digitChar_isDigit _
  · exact digitChar_isDigit _

theorem derive_key_total_witness :
    deriveKey ⟨2024, 1, 10⟩ = deriveKey ⟨2024, 1, 31⟩ ∧
    (deriveKey ⟨2024, 1, 10⟩).length = 7 := by
  have h := derive_key_total_and_month_determined ⟨2024, 1, 10⟩ ⟨2024, 1, 31⟩
    (by decide) (by decide) rfl rfl
  exact ⟨h.1, h.2.1⟩

/-- C6: the lexicographic string order on derived `YYYY.MM` keys coincides
with chronological order of the underlying months, so the script's
`sorted(..., reverse=True)` on key strings visits partitions in descending
chronological order. -/
theorem derive_key_order_matches_chronology (d1 d2 : Date)
    (h1 : ValidDate d1) (h2 : ValidDate d2) :
    (deriveKey d1 < deriveKey d2 ↔
      (d1.year < d2.year ∨ (d1.year = d2.year ∧ d1.month < d2.month))) := by
  unfold deriveKey
  obtain ⟨-, hy1, -, hm1, -, -⟩ := h1
  obtain ⟨-, hy2, -, hm2, -, -⟩ := h2
  exact yearMonthKey_lt_iff hy1 hy2 (by omega) (by omega)

theorem derive_key_order_witness :
    deriveKey ⟨2023, 12, 31⟩ < deriveKey ⟨2024, 1, 1⟩ := by
  exact (derive_key_order_matches_chronology ⟨2023, 12, 31⟩ ⟨2024, 1, 1⟩
    (by decide) (by decide)).mpr (Or.inl (by decide))

/-- Month reached by `current_date.replace(day=1) - pd.DateOffset(months=i)`
(lines 181-185 of the script), on the `(year, month)` pair. -/
def monthsBack (y m i : Nat) : Nat × Nat :=
  ((y * 12 + (m - 1) - i) / 12, (y * 12 + (m - 1) - i) % 12 + 1)

/-- RecentWindow of the script (lines 176-188): keys of the current month
and the five months before it, most recent first. -/
def recentMonths (y m : Nat) : List String :=
  (List.range 6).map (fun i => yearMonthKey (monthsBack y m i).1 (monthsBack y m i).2)

/-- Calendar predecessor of a `(year, month)` pair, used to state what
`the five preceding months' means independently of the offset arithmetic. -/
def prevMonth (p : Nat × Nat) : Nat × Nat :=
  if p.2 = 1 then (p.1 - 1, 12) else (p.1, p.2 - 1)

theorem monthsBack_zero (y m : Nat) (h1 : 1 ≤ m) (h2 : m ≤ 12) :
    monthsBack y m 0 = (y, m) := by
  unfold monthsBack
  rw [Prod.mk.injEq]
  omega

theorem monthsBack_succ (y m i : Nat) (h : i + 1 ≤ y * 12 + (m - 1)) :
    monthsBack y m (i + 1) = prevMonth (monthsBack y m i) := by
  unfold monthsBack prevMonth
  simp only
  split_ifs with h1 <;> (rw [Prod.mk.injEq]; omega)

theorem monthsBack_eq_iter (y m : Nat) (h1 : 1 ≤ m) (h2 : m ≤ 12) :
    ∀ i, i ≤ y * 12 + (m - 1) → monthsBack y m i = prevMonth^[i] (y, m) := by
  intro i
  induction i with
  | zero => intro _; exact monthsBack_zero y m h1 h2
  | succ n ih =>
    intro h
    rw [Function.iterate_succ_apply', ← ih (by omega), monthsBack_succ y m n h]

/-- C2: the RecentWindow the script computes is the current calendar month
together with its five calendar predecessors (year boundaries included), and
at current date 2024-03-15 it is exactly
`2024.03, 2024.02, 2024.01, 2023.12, 2023.11, 2023.10`. -/
theorem recent_window_correct (y m : Nat)
    (h1 : 1 ≤ m) (h2 : m ≤ 12) (h3 : 5 ≤ y * 12 + (m - 1)) :
    recentMonths y m =
      (List.range 6).map
        (fun i => yearMonthKey (prevMonth^[i] (y, m)).1 (prevMonth^[i] (y, m)).2) ∧
    recentMonths 2024 3 =
      ["2024.03", "2024.02", "2024.01", "2023.12", "2023.11", "2023.10"] := by
  constructor
  · unfold recentMonths
    apply List.map_congr_left
    intro i hi
    rw [monthsBack_eq_iter y m h1 h2 i
      (by rw [List.mem_range] at hi; omega)]
  · decide

theorem recent_window_witness :
    recentMonths 2024 3 =
      ["2024.03", "2024.02", "2024.01", "2023.12", "2023.11", "2023.10"] :=
  (recent_window_correct 2024 3 (by omega) (by omega) (by omega)).2

/-- Cache pass of `process_dataset_by_month` (lines 190-222): iterate over the
months found in the data; for each month, when `--overwrite-cache` is set or
the month is in the recent window, re-derive the partition from the source
(`mat`) and overwrite the cached file; otherwise do nothing for that month.
Returns the final cache contents and the list of months written. -/
def cacheLoop {α : Type} (overwrite_cache : Bool) (recent : List String)
    (mat : String → α) :
    List String → (String → Option α) → (String → Option α) × List String
  | [], c => (c, [])
  | month :: rest, c =>
    if overwrite_cache = true ∨ month ∈ recent then
      let r := cacheLoop overwrite_cache recent mat rest
        (fun k => if k = month then some (mat month) else c k)
      (r.1, month :: r.2)
    else
      cacheLoop overwrite_cache recent mat rest c

theorem cacheLoop_writes {α : Type} (ov : Bool) (recent : List String)
    (mat : String → α) (months : List String) (c : String → Option α) :
    (cacheLoop ov recent mat months c).2 =
      months.filter (fun mo => decide (ov = true ∨ mo ∈ recent)) := by
  induction months generalizing c with
  | nil => rfl
  | cons month rest ih =>
    unfold cacheLoop
    rw [List.filter_cons]
    by_cases h : ov = true ∨ month ∈ recent
    · simp only [if_pos h]
      rw [ih]
      simp [h]
    · simp only [if_neg h]
      rw [ih]
      simp [h]

theorem cacheLoop_not_mem {α : Type} (ov : Bool) (recent : List String)
    (mat : String → α) (months : List String) (c : String → Option α)
    (m : String) (hm : m ∉ months) :
    (cacheLoop ov recent mat months c).1 m = c m := by
  induction months generalizing c with
  | nil => rfl
  | cons month rest ih =>
    have hne : m ≠ month := fun e => hm (e ▸ List.mem_cons_self month rest)
    have hrest : m ∉ rest := fun e => hm (List.mem_cons_of_mem month e)
    unfold cacheLoop
    by_cases h : ov = true ∨ month ∈ recent
    · simp only [if_pos h]
      rw [ih _ hrest]
      simp [hne]
    · simp only [if_neg h]
      exact ih c hrest

theorem cacheLoop_untouched {α : Type} (ov : Bool) (recent : List String)
    (mat : String → α) (months : List String) (c : String → Option α)
    (m : String) (hm : ¬(ov = true ∨ m ∈ recent)) :
    (cacheLoop ov recent mat months c).1 m = c m := by
  induction months generalizing c with
  | nil => rfl
  | cons month rest ih =>
    unfold cacheLoop
    by_cases h : ov = true ∨ month ∈ recent
    · have hne : m ≠ month := by
        rintro rfl; exact hm h
      simp only [if_pos h]
      rw [ih]
      simp [hne]
    · simp only [if_neg h]
      exact ih c

theorem cacheLoop_written_value {α : Type} (ov : Bool) (recent : List String)
    (mat : String → α) (months : List String) (c : String → Option α)
    (m : String) (hmem : m ∈ months) (hcond : ov = true ∨ m ∈ recent) :
    (cacheLoop ov recent mat months c).1 m = some (mat m) := by
  induction months generalizing c with
  | nil => exact absurd hmem (List.not_mem_nil m)
  | cons month rest ih =>
    unfold cacheLoop
    rcases List.mem_cons.mp hmem with rfl | hrest
    · simp only [if_pos hcond]
      by_cases hr : m ∈ rest
      · exact ih _ hr
      · rw [cacheLoop_not_mem _ _ _ _ _ _ hr]
        simp
    · by_cases h : ov = true ∨ month ∈ recent
      · simp only [if_pos h]
        exact ih _ hrest
      · simp only [if_neg h]
        exact ih _ hrest

/-- C1: in the cache pass, a month's cached file is written exactly when the
`--overwrite-cache` flag is set or the month lies in the recent window; a
written file holds the freshly derived partition, and when neither condition
holds the cached entry for that month keeps its previous contents (it is
neither re-derived nor deleted). -/
theorem cache_overwrite_iff_flag_or_recent {α : Type} (ov : Bool)
    (recent months : List String) (mat : String → α) (c : String → Option α)
    (m : String) :
    (m ∈ (cacheLoop ov recent mat months c).2 ↔
      (m ∈ months ∧ (ov = true ∨ m ∈ recent))) ∧
    ((m ∈ months ∧ (ov = true ∨ m ∈ recent)) →
      (cacheLoop ov recent mat months c).1 m = some (mat m)) ∧
    (¬(ov = true ∨ m ∈ recent) → (cacheLoop ov recent mat months c).1 m = c m) := by
  refine ⟨?_, fun h => cacheLoop_written_value ov recent mat months c m h.1 h.2,
    cacheLoop_untouched ov recent mat months c m⟩
  rw [cacheLoop_writes]
  simp [List.mem_filter]

theorem cache_overwrite_witness :
    ("2020.01" ∉
      (cacheLoop false ["2024.03"] (fun _ => 0) ["2024.03", "2020.01"]
        (fun _ => some 7)).2) ∧
    (cacheLoop false ["2024.03"] (fun _ => 0) ["2024.03", "2020.01"]
        (fun _ => some 7)).1 "2020.01" = some 7 := by
  have h := cache_overwrite_iff_flag_or_recent false ["2024.03"]
    ["2024.03", "2020.01"] (fun _ => (0 : Nat)) (fun _ => some 7) "2020.01"
  constructor
  · intro hmem
    have := h.1.mp hmem
    simp at this
  · exact h.2.2 (by simp)

/-- Row of the source dataframe: the parsed `date` column plus all other
columns, abstracted as a payload. -/
structure Row (α : Type) where
  date : Date
  payload : α
deriving DecidableEq, Repr

/-- Grouping column added by the script: pairs each row with its derived
`year_month` key (line 171). -/
def withYearMonth {α : Type} (df : List (Row α)) : List (Row α × String) :=
  df.map (fun r => (r, deriveKey r.date))

/-- Partition dataframe for one month:
`df[df["year_month"] == month].drop(columns=["year_month"])` (line 204). -/
def monthSlice {α : Type} (df : List (Row α)) (month : String) : List (Row α) :=
  ((withYearMonth df).filter (fun p => p.2 == month)).map Prod.fst

/-- C9: the rows written for one month's partition are exactly the source
rows whose date derives that month key, with the grouping column dropped and
every original column (the whole `Row` record) preserved unchanged. -/
theorem month_slice_exact {α : Type} (df : List (Row α)) (month : String) :
    monthSlice df month = df.filter (fun r => deriveKey r.date == month) := by
  induction df with
  | nil => rfl
  | cons r rest ih =>
    unfold monthSlice withYearMonth at ih ⊢
    simp only [List.map_cons, List.filter_cons]
    cases hb : (deriveKey r.date == month) with
    | false => simpa [hb] using ih
    | true => simpa [hb] using ih

/-- Splitting of a character list at every occurrence of a separator,
the semantics of Python `str.split` with a one-character separator
(empty pieces kept). -/
def splitChar (sep : Char) : List Char → List (List Char)
  | [] => [[]]
  | c :: rest =>
    let r := splitChar sep rest
    if c = sep then [] :: r
    else
      match r with
      | [] => [[c]]
      | h :: t => (c :: h) :: t

/-- Lowercasing of a string, the semantics of Python `str.lower` on ASCII. -/
def strToLower (s : String) : String := String.mk (s.data.map Char.toLower)

/-- Short dataset name: `repo_id.split("/")[-1].lower()` (line 158). -/
def repoShortName (repo_id : String) : String :=
  strToLower (String.mk ((splitChar '/' repo_id.data).getLastD []))

/-- File name used by `get_cache_file_path` (lines 86-87), also the name the
object keeps under the bucket prefix. -/
def cacheFileName (repo_name month : String) : String :=
  repo_name ++ "_" ++ month ++ ".parquet"

/-- Destination URI passed to rclone: `r2:/<bucket>/ds/<repo_name>/` (line 109). -/
def destPath (bucket repo_name : String) : String :=
  "r2:/" ++ bucket ++ "/ds/" ++ repo_name ++ "/"

/-- Bucket key a month's cached file lands at: the rclone destination prefix
`ds/<repo_name>/` joined with the cached file's name. -/
def destObjectKey (repo_id month : String) : String :=
  "ds/" ++ repoShortName repo_id ++ "/" ++ cacheFileName (repoShortName repo_id) month

/-- C7: every partition object lands at
`ds/<dataset>/<dataset>_<YYYY.MM>.parquet`, where `<dataset>` is the
lowercased last path segment of the source repository id; distinct month
keys always land at distinct object keys, so each partition has exactly one
object. -/
theorem partition_object_key_layout (repo_id month month1 month2 : String) :
    destObjectKey repo_id month =
      "ds/" ++ repoShortName repo_id ++ "/" ++
        (repoShortName repo_id ++ "_" ++ month ++ ".parquet") ∧
    repoShortName "paperswithbacktest/Stocks-Daily-Price" = "stocks-daily-price" ∧
    (destObjectKey repo_id month1 = destObjectKey repo_id month2 → month1 = month2) := by
  refine ⟨?_, by decide, ?_⟩
  · unfold destObjectKey cacheFileName
    simp [String.append_assoc]
  · intro h
    unfold destObjectKey cacheFileName at h
    rw [String.ext_iff] at h
    simp only [String.data_append, List.append_assoc, List.append_right_inj,
      List.append_left_inj] at h
    exact String.ext h

theorem partition_object_key_witness :
    destObjectKey "paperswithbacktest/Stocks-Daily-Price" "2024.03" =
      "ds/stocks-daily-price/stocks-daily-price_2024.03.parquet" := by
  have h := partition_object_key_layout "paperswithbacktest/Stocks-Daily-Price"
    "2024.03" "2024.03" "2024.03"
  rw [h.1, h.2.1]
  decide

/-- Result of the external rclone process: exit code and captured output. -/
structure TransferResult where
  exitCode : Nat
  stdout : String
  stderr : String
deriving DecidableEq, Repr

/-- Printed lines of the try/except around `subprocess.run` (lines 142-150):
on exit code zero the script prints a completion line and the captured
stdout; on a non-zero exit the `CalledProcessError` is caught — not
re-raised — and the exception, its captured stdout and its captured stderr
are printed. -/
def syncOutput (repo_name : String) (r : TransferResult) : List String :=
  if r.exitCode = 0 then
    ["Sync completed successfully for " ++ repo_name, r.stdout]
  else
    ["Error syncing files: exit status " ++ toString r.exitCode,
     "Command output: " ++ r.stdout,
     "Command error: " ++ r.stderr]

/-- Contents of the rclone configuration file written by `sync_files_to_r2`
(lines 93-103), with the access key id, secret access key and endpoint
interpolated in plaintext. -/
def rcloneConfContent (keyId secret endpoint : String) : String :=
  "[r2]\ntype = s3\nenv_auth = true\nprovider = Cloudflare\naccess_key_id = "
    ++ keyId ++ "\nsecret_access_key = " ++ secret
    ++ "\nendpoint = " ++ endpoint ++ "\n"

/-- Filesystem effect of `sync_files_to_r2` (lines 90-154): the config file
is written into the cache directory before the transfer runs; the cleanup
that would remove it (lines 151-154) is commented out, so the final state
equals the state the transfer saw.  Returns the state seen by the transfer,
the final state, and the printed lines. -/
def sync_files_to_r2 (cacheDir keyId secret endpoint repo_name : String)
    (r : TransferResult) (fs : String → Option String) :
    (String → Option String) × (String → Option String) × List String :=
  let fsDuring := fun p =>
    if p = cacheDir ++ "/rclone.conf" then some (rcloneConfContent keyId secret endpoint)
    else fs p
  (fsDuring, fsDuring, syncOutput repo_name r)

/-- C10: on every sync, a config file holding the access key id and the
secret access key in plaintext is present at `<cacheDir>/rclone.conf` when
the transfer runs, and — success or failure — it is still on disk with the
same contents after the call, for any prior filesystem state. -/
theorem credentials_file_written_and_persisted
    (cacheDir keyId secret endpoint repo_name : String)
    (r : TransferResult) (fs : String → Option String) :
    ((sync_files_to_r2 cacheDir keyId secret endpoint repo_name r fs).1
        (cacheDir ++ "/rclone.conf") =
      some (rcloneConfContent keyId secret endpoint)) ∧
    ((sync_files_to_r2 cacheDir keyId secret endpoint repo_name r fs).2.1
        (cacheDir ++ "/rclone.conf") =
      some (rcloneConfContent keyId secret endpoint)) ∧
    (∃ s1 s2 s3, rcloneConfContent keyId secret endpoint =
      s1 ++ keyId ++ s2 ++ secret ++ s3) := by
  refine ⟨by simp [sync_files_to_r2], by simp [sync_files_to_r2], ?_⟩
  exact ⟨"[r2]\ntype = s3\nenv_auth = true\nprovider = Cloudflare\naccess_key_id = ",
    "\nsecret_access_key = ", "\nendpoint = " ++ endpoint ++ "\n",
    by unfold rcloneConfContent; simp [String.append_assoc]⟩

/-- Exceptions the script can raise while loading or partitioning a dataset,
before or apart from the transfer step; none of them is handled anywhere in
the script. -/
inductive LoadError where
  | metadataUnavailable
  | malformedDate
  | storageError
deriving DecidableEq, Repr

/-- Environment of one `process_dataset_by_month` call: the dataset's short
name, whether some step outside the transfer raises, and the external
transfer's result. -/
structure DatasetRun where
  repo_name : String
  loadError : Option LoadError
  transfer : TransferResult

/-- Control flow of `process_dataset_by_month` (lines 157-226): an exception
raised while loading, parsing dates or writing the cache propagates out of
the function (the body has no handler); otherwise the function runs to
completion and the transfer's printed lines are produced, a transfer
failure having been caught inside `sync_files_to_r2`. -/
def process_dataset_by_month (d : DatasetRun) : Except LoadError (List String) :=
  match d.loadError with
  | some e => Except.error e
  | none => Except.ok (syncOutput d.repo_name d.transfer)

/-- The `main` loop (lines 229-239): datasets are processed in order; the
loop body is not wrapped in any exception handler, so an uncaught exception
aborts the remaining iterations.  Returns the outputs of the datasets that
completed and the aborting error, if any. -/
def mainRun : List DatasetRun → List (List String) × Option LoadError
  | [] => ([], none)
  | d :: rest =>
    match process_dataset_by_month d with
    | Except.error e => ([], some e)
    | Except.ok out =>
      let p := mainRun rest
      (out :: p.1, p.2)

/-- C4: when the external transfer exits non-zero the error is caught — the
batch never aborts and every dataset in the list completes — and the
captured stdout and stderr of the failing invocation are among the lines
surfaced to the operator. -/
theorem transfer_failure_caught_and_batch_continues (ds : List DatasetRun)
    (h : ∀ d ∈ ds, d.loadError = none) :
    (mainRun ds).1 = ds.map (fun d => syncOutput d.repo_name d.transfer) ∧
    (mainRun ds).2 = none ∧
    (∀ d ∈ ds, d.transfer.exitCode ≠ 0 →
      ("Command output: " ++ d.transfer.stdout) ∈ syncOutput d.repo_name d.transfer ∧
      ("Command error: " ++ d.transfer.stderr) ∈ syncOutput d.repo_name d.transfer) := by
  refine ⟨?_, ?_, ?_⟩
  · induction ds with
    | nil => rfl
    | cons d rest ih =>
      have hd : d.loadError = none := h d (List.mem_cons_self d rest)
      unfold mainRun process_dataset_by_month
      rw [hd]
      simp only [List.map_cons]
      rw [ih (fun x hx => h x (List.mem_cons_of_mem d hx))]
  · induction ds with
    | nil => rfl
    | cons d rest ih =>
      have hd : d.loadError = none := h d (List.mem_cons_self d rest)
      unfold mainRun process_dataset_by_month
      rw [hd]
      exact ih (fun x hx => h x (List.mem_cons_of_mem d hx))
  · intro d _ hfail
    unfold syncOutput
    rw [if_neg hfail]
    exact ⟨by simp, by simp⟩

theorem transfer_failure_witness :
    (mainRun [⟨"stocks-daily-price", none, ⟨1, "out1", "err1"⟩⟩,
              ⟨"etfs-daily-price", none, ⟨0, "", ""⟩⟩]).2 = none ∧
    ("Command error: " ++ "err1") ∈
      syncOutput "stocks-daily-price" ⟨1, "out1", "err1"⟩ := by
  have h := transfer_failure_caught_and_batch_continues
    [⟨"stocks-daily-price", none, ⟨1, "out1", "err1"⟩⟩,
     ⟨"etfs-daily-price", none, ⟨0, "", ""⟩⟩]
    (by decide)
  refine ⟨h.2.1, ?_⟩
  exact (h.2.2 ⟨"stocks-daily-price", none, ⟨1, "out1", "err1"⟩⟩
    (List.mem_cons_self _ _) (by decide)).2

/-- C8, counterexample: in a two-dataset batch whose first dataset raises
while loading (for example, its metadata is unavailable), the run aborts
with that error and the second dataset is never attempted — no output is
recorded for it.  The claim that any per-dataset failure leaves subsequent
datasets attempted is therefore false for the script as written. -/
theorem batch_abort_on_load_error_cex :
    mainRun [⟨"stocks-daily-price", some LoadError.metadataUnavailable, ⟨0, "", ""⟩⟩,
             ⟨"etfs-daily-price", none, ⟨0, "", ""⟩⟩] =
      ([], some LoadError.metadataUnavailable) := rfl

/-- C8, amended: only the external transfer failure is isolated.  A dataset
whose transfer fails still completes and the batch continues; but an
exception raised while loading or partitioning a dataset aborts the batch
at that dataset, and none of the datasets after it is attempted. -/
theorem mainRun_cons (d : DatasetRun) (rest : List DatasetRun) :
    mainRun (d :: rest) =
      match d.loadError with
      | some e => ([], some e)
      | none =>
        ((syncOutput d.repo_name d.transfer) :: (mainRun rest).1, (mainRun rest).2) := by
  cases hL : d.loadError <;> simp [mainRun, process_dataset_by_month, hL]

/-- C8, amended: only the external transfer failure is isolated.  A dataset
whose transfer fails still completes and the batch continues; but an
exception raised while loading or partitioning a dataset aborts the batch
at that dataset, and none of the datasets after it is attempted. -/
theorem per_dataset_isolation_amended (pre : List DatasetRun) (d : DatasetRun)
    (post : List DatasetRun) (hpre : ∀ p ∈ pre, p.loadError = none) :
    (d.loadError = none →
      (mainRun (pre ++ d :: post)).1.length =
        pre.length + 1 + (mainRun post).1.length) ∧
    (∀ e, d.loadError = some e →
      mainRun (pre ++ d :: post) =
        (pre.map (fun p => syncOutput p.repo_name p.transfer), some e)) := by
  induction pre with
  | nil =>
    refine ⟨fun hd => ?_, fun e hd => ?_⟩
    · simp only [List.nil_append, mainRun_cons, hd]
      simp only [List.length_cons, List.length_nil]
      omega
    · simp only [List.nil_append, mainRun_cons, hd, List.map_nil]
  | cons p rest ih =>
    have hp : p.loadError = none := hpre p (List.mem_cons_self p rest)
    have ih2 := ih (fun x hx => hpre x (List.mem_cons_of_mem p hx))
    refine ⟨fun hd => ?_, fun e hd => ?_⟩
    · simp only [List.cons_append, mainRun_cons, hp, List.length_cons]
      rw [ih2.1 hd]
      omega
    · simp only [List.cons_append, mainRun_cons, hp, List.map_cons]
      rw [ih2.2 e hd]

/-- Transfer mode selected by `sync_files_to_r2`. -/
inductive RcloneMode where
  | sync
  | copy
deriving DecidableEq, Repr

/-- Command list built by `sync_files_to_r2` (lines 112-140): `rclone sync`
under `--force-sync`, otherwise `rclone copy --size-only --update`; both
restricted to the dataset's files by an include glob. -/
def buildRcloneCmd (force_sync : Bool)
    (configPath repo_name sourceDir dest : String) : List String :=
  if force_sync then
    ["rclone", "sync", "--config", configPath,
     "--include", repo_name ++ "_*.parquet", "--s3-no-check-bucket",
     sourceDir, dest]
  else
    ["rclone", "copy", "--config", configPath,
     "--include", repo_name ++ "_*.parquet", "--s3-no-check-bucket",
     "--size-only", "--update", sourceDir, dest]

/-- Metadata of a stored object that rclone's comparisons look at. -/
structure ObjMeta where
  size : Nat
  mtime : Nat
deriving DecidableEq, Repr

/-- Modelled from the spec: the external bulk-transfer utility (rclone),
which is not part of this repository.  Within the include filter, `sync`
makes the destination identical to the source, deleting destination-only
objects; `copy` with `--size-only` and `--update` transfers a source object
only when the destination lacks it, or has a different size and is not
newer than the source, and it never removes a destination object. -/
def rcloneApply (mode : RcloneMode) (incl : String → Bool)
    (src dst : String → Option ObjMeta) (k : String) : Option ObjMeta :=
  if incl k then
    match mode with
    | RcloneMode.sync => src k
    | RcloneMode.copy =>
      match src k, dst k with
      | some s, none => some s
      | some s, some d =>
        if s.size ≠ d.size ∧ d.mtime ≤ s.mtime then some s else some d
      | none, d => d
  else dst k

/-- C3: with `--force-sync` the script invokes the transfer in sync mode,
whose effect on every included key is to mirror the source — including the
deletion of destination-only objects; without the flag it invokes copy mode
with size-only comparison and skip-newer-destination, which never drops an
existing destination object and leaves the destination unchanged when sizes
match or the destination is newer. -/
theorem bulk_transfer_mode_semantics (force_sync : Bool)
    (configPath repo_name sourceDir dest : String) (incl : String → Bool)
    (src dst : String → Option ObjMeta) :
    (force_sync = true →
      ((buildRcloneCmd force_sync configPath repo_name sourceDir dest).get? 1 =
          some "sync" ∧
       ∀ k, incl k = true → rcloneApply RcloneMode.sync incl src dst k = src k)) ∧
    (force_sync = false →
      ((buildRcloneCmd force_sync configPath repo_name sourceDir dest).get? 1 =
          some "copy" ∧
       "--size-only" ∈ buildRcloneCmd force_sync configPath repo_name sourceDir dest ∧
       "--update" ∈ buildRcloneCmd force_sync configPath repo_name sourceDir dest ∧
       (∀ k, (dst k).isSome = true →
          (rcloneApply RcloneMode.copy incl src dst k).isSome = true) ∧
       (∀ k s d, incl k = true → src k = some s → dst k = some d →
          (s.size = d.size ∨ s.mtime < d.mtime) →
          rcloneApply RcloneMode.copy incl src dst k = dst k))) := by
  constructor
  · rintro rfl
    refine ⟨rfl, fun k hk => ?_⟩
    unfold rcloneApply
    rw [if_pos hk]
  · rintro rfl
    refine ⟨rfl, by simp [buildRcloneCmd], by simp [buildRcloneCmd],
      fun k hk => ?_, fun k s d hik hs hd hcond => ?_⟩
    · unfold rcloneApply
      by_cases hik : incl k = true
      · rw [if_pos hik]
        cases hsk : src k with
        | none =>
          cases hdk : dst k with
          | none => rw [hdk] at hk; exact absurd hk (by decide)
          | some dd => simp [hdk]
        | some s =>
          cases hdk : dst k with
          | none => simp
          | some dd =>
            by_cases hc : s.size ≠ dd.size ∧ dd.mtime ≤ s.mtime
            · simp [hdk, if_pos hc]
            · simp [hdk, if_neg hc]
      · rw [if_neg hik]
        exact hk
    · unfold rcloneApply
      rw [if_pos hik, hs, hd]
      have hnc : ¬(s.size ≠ d.size ∧ d.mtime ≤ s.mtime) := by
        rcases hcond with h | h
        · exact fun hc => hc.1 h
        · exact fun hc => absurd hc.2 (by omega)
      show (if s.size ≠ d.size ∧ d.mtime ≤ s.mtime then some s else some d) = some d
      rw [if_neg hnc]

theorem bulk_transfer_mode_witness :
    rcloneApply RcloneMode.sync (fun _ => true) (fun _ => none)
      (fun k => if k = "a" then some ⟨5, 0⟩ else none) "a" = none ∧
    (rcloneApply RcloneMode.copy (fun _ => true) (fun _ => none)
      (fun k => if k = "a" then some ⟨5, 0⟩ else none) "a").isSome = true := by
  have h1 := (bulk_transfer_mode_semantics true "cfg" "rn" "srcdir" "dest"
    (fun _ => true) (fun _ => none)
    (fun k => if k = "a" then some ⟨5, 0⟩ else none)).1 rfl
  have h2 := (bulk_transfer_mode_semantics false "cfg" "rn" "srcdir" "dest"
    (fun _ => true) (fun _ => none)
    (fun k => if k = "a" then some ⟨5, 0⟩ else none)).2 rfl
  exact ⟨h1.2 "a" rfl, h2.2.2.2.1 "a" (by decide)⟩

theorem per_dataset_isolation_witness :
    mainRun [⟨"stocks-daily-price", none, ⟨0, "", ""⟩⟩,
             ⟨"etfs-daily-price", some LoadError.malformedDate, ⟨0, "", ""⟩⟩,
             ⟨"indices-daily-price", none, ⟨0, "", ""⟩⟩] =
      ([syncOutput "stocks-daily-price" ⟨0, "", ""⟩], some LoadError.malformedDate) := by
  have h := per_dataset_isolation_amended
    [⟨"stocks-daily-price", none, ⟨0, "", ""⟩⟩]
    ⟨"etfs-daily-price", some LoadError.malformedDate, ⟨0, "", ""⟩⟩
    [⟨"indices-daily-price", none, ⟨0, "", ""⟩⟩]
    (by decide)
  exact h.2 LoadError.malformedDate rfl
